import Mathlib

/-!
Verification of the ErrorPropagator repository (src/core/IB.py and
src/server.py) against its natural-language specification.

The repository's algebra is the sympy library.  We shallowly embed the
fragment of sympy that the repository exercises: a symbolic expression
tree `SymExpr` whose constructors auto-evaluate the way sympy's
`Add`/`Mul`/`Pow`/`Abs` constructors do on the inputs the repository
builds (constant folding, dropped additive/multiplicative identities,
zero annihilation).  sympy's n-ary `Add`/`Mul` nodes are represented as
left-nested binary nodes; `addTerms` recovers the flat argument list that
sympy exposes as `.args` on an `Add`.  The process-wide
`sympy.assumptions.assume.global_assumptions` set is threaded explicitly
as a `List Assumption` state parameter.
-/

/-- An assumption on a named symbol, as built by `sympy.Q.positive` /
`sympy.Q.negative` applied to a `Symbol`.  The repository only ever
constructs positivity assumptions; negativity is included so that a
caller-supplied assumption contradicting the implicit positivity
assumption can be expressed. -/
inductive Assumption
  | positive (s : String)
  | negative (s : String)
deriving DecidableEq, Repr, BEq

/-- Symbolic expression trees: the fragment of `sympy.Expr` that the
repository builds (integer literals, symbols, the constants pi and E,
sums, products, powers, absolute values, sign, and logarithm — the last
two arise only from differentiation of `abs` and `pow`). -/
inductive SymExpr
  | int (n : Int)
  | sym (s : String)
  | piC
  | eC
  | add (a b : SymExpr)
  | mul (a b : SymExpr)
  | pow (a b : SymExpr)
  | abs (a : SymExpr)
  | sign (a : SymExpr)
  | log (a : SymExpr)
deriving DecidableEq, Repr, BEq

namespace SymExpr

/-- The flat addend list of a sympy `Add` node (`expr.args` when
`type(expr) == sympy.Add`); a non-sum is its own single addend. -/
def addTerms : SymExpr → List SymExpr
  | add a b => addTerms a ++ addTerms b
  | e => [e]

/-- The integer value of an integer-literal node, if the node is one. -/
def getInt : SymExpr → Option Int
  | int n => some n
  | _ => none

/-- sympy's auto-evaluating binary `+` (`Add(a, b)`): folds integer
literals and drops the additive identity, as sympy's constructor does. -/
def sAdd (a b : SymExpr) : SymExpr :=
  match getInt a, getInt b with
  | some m, some n => int (m + n)
  | _, _ => if a = int 0 then b else if b = int 0 then a else add a b

/-- sympy's auto-evaluating binary `*` (`Mul(a, b)`): folds integer
literals, annihilates on zero and drops the multiplicative identity. -/
def sMul (a b : SymExpr) : SymExpr :=
  match getInt a, getInt b with
  | some m, some n => int (m * n)
  | _, _ =>
      if a = int 0 then int 0
      else if b = int 0 then int 0
      else if a = int 1 then b
      else if b = int 1 then a
      else mul a b

/-- sympy's auto-evaluating `Pow(a, b)`: exponent one and zero collapse
at construction. -/
def sPow (a b : SymExpr) : SymExpr :=
  if b = int 1 then a else if b = int 0 then int 1 else pow a b

/-- sympy's auto-evaluating `Abs(e)`: the absolute value of an integer
literal evaluates at construction. -/
def sAbs : SymExpr → SymExpr
  | int n => int n.natAbs
  | e => abs e

/-- sympy's `/` on expressions: `a / b` is `Mul(a, Pow(b, -1))`,
evaluated. -/
def sDiv (a b : SymExpr) : SymExpr :=
  sMul a (sPow b (int (-1)))

/-- sympy's `a - b`: `Add(a, Mul(-1, b))`, evaluated. -/
def sSub (a b : SymExpr) : SymExpr :=
  sAdd a (sMul (int (-1)) b)

/-- `sympy.diff(e, v)`: the partial derivative of `e` with respect to
the symbol named `v`, rebuilt through the auto-evaluating constructors.
Products use the two-factor product rule (the binary image of sympy's
n-ary rule); powers use the general rule
`f^g * (g' * log f + g * f' / f)`; `Abs` differentiates to
`sign(t) * t'` and `sign` (piecewise constant) to zero. -/
def diff (e : SymExpr) (v : String) : SymExpr :=
  match e with
  | int _ => int 0
  | piC => int 0
  | eC => int 0
  | sym s => if s = v then int 1 else int 0
  | add a b => sAdd (diff a v) (diff b v)
  | mul a b => sAdd (sMul (diff a v) b) (sMul a (diff b v))
  | pow a b =>
      sMul (sPow a b)
        (sAdd (sMul (diff b v) (log a))
              (sMul b (sMul (diff a v) (sPow a (int (-1))))))
  | abs a => sMul (sign a) (diff a v)
  | sign _ => int 0
  | log a => sMul (diff a v) (sPow a (int (-1)))

/-- Syntactic positivity test used by the embedded `refine`: an integer
literal is positive when its value is, a symbol when the assumption set
contains its positivity.  (sympy's `ask` proves more; the repository
only relies on it for symbols and literals.) -/
def provesPositive (g : List Assumption) : SymExpr → Bool
  | int n => decide (0 < n)
  | sym s => g.contains (Assumption.positive s)
  | _ => false

/-- Syntactic negativity test used by the embedded `refine`. -/
def provesNegative (g : List Assumption) : SymExpr → Bool
  | int n => decide (n < 0)
  | sym s => g.contains (Assumption.negative s)
  | _ => false

/-- `sympy.refine(e)` under the assumption set `g`: rebuilds the tree
bottom-up through the evaluating constructors, resolving `Abs t` to `t`
(resp. `-t`) and `sign t` to `1` (resp. `-1`) when the assumptions prove
`t` positive (resp. negative). -/
def refine (g : List Assumption) : SymExpr → SymExpr
  | int n => int n
  | sym s => sym s
  | piC => piC
  | eC => eC
  | add a b => sAdd (refine g a) (refine g b)
  | mul a b => sMul (refine g a) (refine g b)
  | pow a b => sPow (refine g a) (refine g b)
  | abs a =>
      let a' := refine g a
      if provesPositive g a' then a'
      else if provesNegative g a' then sMul (int (-1)) a'
      else abs a'
  | sign a =>
      let a' := refine g a
      if provesPositive g a' then int 1
      else if provesNegative g a' then int (-1)
      else sign a'
  | log a => log (refine g a)

/-- `expr.subs(values)`: simultaneous substitution of symbols by
expressions, rebuilding through the auto-evaluating constructors (sympy
re-evaluates on rebuild).  Symbols absent from the mapping are left
symbolic — substitution is partial. -/
def subs (vals : List (String × SymExpr)) : SymExpr → SymExpr
  | int n => int n
  | piC => piC
  | eC => eC
  | sym s =>
      match vals.find? (fun p => p.1 = s) with
      | some p => p.2
      | none => sym s
  | add a b => sAdd (subs vals a) (subs vals b)
  | mul a b => sMul (subs vals a) (subs vals b)
  | pow a b => sPow (subs vals a) (subs vals b)
  | abs a => sAbs (subs vals a)
  | sign a => sign (subs vals a)
  | log a => log (subs vals a)

/-- `expr.atoms(sympy.Symbol)`: the set of symbols occurring in the
expression (the constants pi and E are not `Symbol` atoms), as a
duplicate-free list. -/
def atoms : SymExpr → List String
  | int _ => []
  | piC => []
  | eC => []
  | sym s => [s]
  | add a b => atoms a ∪ atoms b
  | mul a b => atoms a ∪ atoms b
  | pow a b => atoms a ∪ atoms b
  | abs a => atoms a
  | sign a => atoms a
  | log a => atoms a

/-- Simplified model of `sympy.latex`: a typesettable rendering of the
tree.  (sympy chooses nicer layouts such as `\frac`; the properties
verified here depend only on the rendering being a pure function of the
tree.) -/
def latexRender : SymExpr → String
  | int n => toString n
  | sym s => s
  | piC => "\\pi"
  | eC => "e"
  | add a b => latexRender a ++ " + " ++ latexRender b
  | mul a b => latexRender a ++ " \\cdot " ++ latexRender b
  | pow a b => latexRender a ++ "^\x7b" ++ latexRender b ++ "\x7d"
  | abs a => "\\left|" ++ latexRender a ++ "\\right|"
  | sign a => "\\mathrm\x7bsign\x7d\\left(" ++ latexRender a ++ "\\right)"
  | log a => "\\log\\left(" ++ latexRender a ++ "\\right)"

end SymExpr

/-- Exponentiation on rationals used to give `SymExpr.pow` a meaning:
integer exponents act by `zpow`; a non-integer exponent yields the junk
value `0` (no expression the repository evaluates semantically here has
one). -/
def ratPow (b e : ℚ) : ℚ :=
  if e.den = 1 then b ^ e.num else 0

namespace SymExpr

/-- Semantic denotation of a symbolic expression at an environment
assigning a rational value to every symbol.  This is the verification
artifact used to state "mathematically equal": `piC`, `eC` and `log`
have no rational value and denote the junk value `0`; the identities
proved below are compositional and do not depend on those leaves. -/
def denote (env : String → ℚ) : SymExpr → ℚ
  | int n => (n : ℚ)
  | sym s => env s
  | piC => 0
  | eC => 0
  | add a b => denote env a + denote env b
  | mul a b => denote env a * denote env b
  | pow a b => ratPow (denote env a) (denote env b)
  | abs a => |denote env a|
  | sign a =>
      if 0 < denote env a then 1 else if denote env a < 0 then -1 else 0
  | log _ => 0

end SymExpr

/-- The `Expression` class of src/core/IB.py: an ordered argument list
(symbols are identified by name) and a sympy expression tree.  The
constructor `__init__` stores both fields as given, with no
validation. -/
structure Expression where
  args : List String
  expr : SymExpr
deriving DecidableEq, Repr

/-- `Expression.__init__`: assigns `self.args = args` and
`self.expr = expr`; nothing else (src/core/IB.py lines 13–27). -/
def Expression.init (args : List String) (expr : SymExpr) : Expression :=
  ⟨args, expr⟩

/-- `Expression.evaluate(self, values)` (src/core/IB.py lines 43–54):
returns `self.expr.subs(values)`.  Its only parameters are `self` and
`values`; there is no precision parameter and no rounding. -/
def Expression.evaluate (self : Expression)
    (values : List (String × SymExpr)) : SymExpr :=
  self.expr.subs values

/-- `Expression.calculate_absolute_uncertainty(self, *assumptions)`
(src/core/IB.py lines 56–79), with the process-wide
`global_assumptions` set threaded explicitly: add the supplied
assumptions to the global set; for each argument `var` in order, build
the uncertainty symbol `Δvar`, accumulate
`Abs(self.expr.diff(var)) * Δvar` onto the running sum (which starts at
`Integer(0)`), and add `Q.positive(var)` to the global set; refine the
accumulated sum under the final global set; clear the global set; and
return the new Expression together with the final (cleared) global
set.  `absStep` below is one iteration of the loop body for the formula
`f`, acting on the accumulator triple (running uncertainty sum,
uncertainty-argument list, global assumption set); the whole loop is the
`foldl` in `Expression.calculate_absolute_uncertainty`. -/
def absStep (f : SymExpr) (acc : SymExpr × List String × List Assumption)
    (var : String) : SymExpr × List String × List Assumption :=
  let d_var := "Δ" ++ var
  (SymExpr.sAdd acc.1
     (SymExpr.sMul (SymExpr.sAbs (f.diff var)) (SymExpr.sym d_var)),
   acc.2.1 ++ [d_var],
   acc.2.2 ++ [Assumption.positive var])

/-- See the doc comment of `absStep` for the source correspondence of
this loop (src/core/IB.py lines 56–79). -/
def Expression.calculate_absolute_uncertainty (self : Expression)
    (assumptions : List Assumption) (global_assumptions : List Assumption) :
    Expression × List Assumption :=
  let g1 := global_assumptions ++ assumptions
  let r := self.args.foldl (absStep self.expr) (SymExpr.int 0, [], g1)
  let uncertainty_expr := SymExpr.refine r.2.2 r.1
  (⟨r.2.1, uncertainty_expr⟩, [])

/-- `Expression.calculate_fractional_uncertainty(self, *assumptions)`
(src/core/IB.py lines 81–101): computes the absolute uncertainty, then
branches on the Python type of its formula.  A top-level `Add` has each
addend divided by `self.expr` and re-summed; the `elif` tests
`type(absolute_uncertainty.expr) == sympy.Mul or
type(absolute_uncertainty) == sympy.Pow`, whose second disjunct compares
the `Expression` object itself (never a sympy `Pow`) and is identically
false, so only a `Mul` reaches that branch and a `Pow`-shaped formula
falls through to the `else`; the `else` builds
`Mul(absolute_uncertainty.expr, Pow(self.expr, -1), evaluate=False)`, an
unevaluated product node (the inner `Pow` call is evaluated).
`fracBranch` is that if/elif/else block (src/core/IB.py lines 93–100),
and `Expression.calculate_fractional_uncertainty` below wraps it. -/
def fracBranch (abs_expr self_expr : SymExpr) : SymExpr :=
  match abs_expr with
  | SymExpr.add a b =>
      ((SymExpr.add a b).addTerms).foldl
        (fun acc addend => SymExpr.sAdd acc (SymExpr.sDiv addend self_expr))
        (SymExpr.int 0)
  | SymExpr.mul a b => SymExpr.sDiv (SymExpr.mul a b) self_expr
  | e => SymExpr.mul e (SymExpr.sPow self_expr (SymExpr.int (-1)))

def Expression.calculate_fractional_uncertainty (self : Expression)
    (assumptions : List Assumption) (global_assumptions : List Assumption) :
    Expression × List Assumption :=
  let r := self.calculate_absolute_uncertainty assumptions global_assumptions
  let absolute_uncertainty := r.1
  (⟨absolute_uncertainty.args, fracBranch absolute_uncertainty.expr self.expr⟩,
   r.2)

/-- `Expression.to_latex(self)` (src/core/IB.py lines 103–115):
`sympy.latex(self.expr)`. -/
def Expression.to_latex (self : Expression) : String :=
  self.expr.latexRender

/-- `Expression.from_latex(cls, latex)` (src/core/IB.py lines 117–119):
the body is `pass`, so the call returns `None`. -/
def Expression.from_latex (_latex : String) : Option Expression :=
  none

/-!
### The transport layer (src/server.py)

The Flask handlers are modelled as functions of the decoded request.
Python's dynamic failures are modelled explicitly: attribute lookup on
the `Expression` class consults the list of attributes the class body
actually defines, and a call passing a keyword argument that the callee's
signature does not declare (and no `**kwargs` catch-all exists anywhere
in src/core/IB.py) is a `TypeError`.
-/

/-- Python exceptions that the modelled handler code can raise. -/
inductive PyError
  | attributeError (name : String)
  | typeError (callee : String)
deriving DecidableEq, Repr

/-- The attributes defined by the class body of `Expression` in
src/core/IB.py.  There is no `from_string`. -/
def expressionClassAttrs : List String :=
  ["__init__", "__repr__", "evaluate", "calculate_absolute_uncertainty",
   "calculate_fractional_uncertainty", "to_latex", "from_latex"]

/-- The parameter names of `Expression.evaluate` that a keyword argument
can bind to in a bound call (the signature is `(self, values)`). -/
def evaluateKeywordParams : List String := ["values"]

/-- The parameter names of `Expression.calculate_absolute_uncertainty`
and `Expression.calculate_fractional_uncertainty` that a keyword
argument can bind to: both signatures are `(self, *assumptions)`, and a
var-positional parameter accepts no keyword, so the list is empty. -/
def uncertaintyKeywordParams : List String := []

/-- Attribute lookup on the `Expression` class: `AttributeError` when
the name is not among the attributes the class body defines. -/
def getattrExpression (name : String) : Except PyError Unit :=
  if expressionClassAttrs.contains name then Except.ok ()
  else Except.error (PyError.attributeError name)

/-- The call `Expression.from_string(str_args, str_expr)` made at
src/server.py line 79: attribute lookup for `from_string` on the class,
which raises `AttributeError` since the class defines no such attribute
(only the stub `from_latex` exists). -/
def fromStringCall (_argNames : List String) (_text : String) :
    Except PyError Expression :=
  match getattrExpression "from_string" with
  | Except.ok _ => Except.error (PyError.attributeError "from_string")
  | Except.error e => Except.error e

/-- A call of `Expression.evaluate` passing the keyword arguments named
in `kwargs`: `TypeError` when some keyword does not match a declared
parameter, otherwise the body runs. -/
def evaluateCall (self : Expression) (values : List (String × SymExpr))
    (kwargs : List String) : Except PyError SymExpr :=
  if kwargs.all (fun k => evaluateKeywordParams.contains k) then
    Except.ok (self.evaluate values)
  else Except.error (PyError.typeError "evaluate")

/-- A call of `Expression.calculate_absolute_uncertainty` passing the
keyword arguments named in `kwargs`. -/
def absoluteUncertaintyCall (self : Expression)
    (assumptions : List Assumption) (g : List Assumption)
    (kwargs : List String) : Except PyError (Expression × List Assumption) :=
  if kwargs.all (fun k => uncertaintyKeywordParams.contains k) then
    Except.ok (self.calculate_absolute_uncertainty assumptions g)
  else Except.error (PyError.typeError "calculate_absolute_uncertainty")

/-- A call of `Expression.calculate_fractional_uncertainty` passing the
keyword arguments named in `kwargs`. -/
def fractionalUncertaintyCall (self : Expression)
    (assumptions : List Assumption) (g : List Assumption)
    (kwargs : List String) : Except PyError (Expression × List Assumption) :=
  if kwargs.all (fun k => uncertaintyKeywordParams.contains k) then
    Except.ok (self.calculate_fractional_uncertainty assumptions g)
  else Except.error (PyError.typeError "calculate_fractional_uncertainty")

/-- The JSON body accepted by the `/calculate` endpoint, before the
`.get(…, default)` reads at src/server.py lines 72–77: each field may be
absent. -/
structure RawCalcRequest where
  expr : Option String
  args : Option (List String)
  vars : Option (List String)
  values : Option (List (String × SymExpr))
  prec : Option Nat
  refineFlag : Option Bool

/-- The decoded `/calculate` request after applying the defaults of
src/server.py lines 72–77 (`expr` defaults to `''`, `args`/`vars` to
`[]`, `values` to `{}`, `prec` to `3`, `refine` to `False`). -/
structure CalcRequest where
  expr : String
  args : List String
  vars : List String
  values : List (String × SymExpr)
  prec : Nat
  refineFlag : Bool

/-- The `.get` reads with defaults at src/server.py lines 72–77. -/
def parseCalcRequest (r : RawCalcRequest) : CalcRequest :=
  ⟨r.expr.getD "", r.args.getD [], r.vars.getD [], r.values.getD [],
   r.prec.getD 3, r.refineFlag.getD false⟩

/-- The JSON response of the `/calculate` endpoint: all six fields are
always present. -/
structure CalcResponse where
  success : Bool
  value : String
  absoluteUncertaintyExpr : String
  absoluteUncertainty : String
  fractionalUncertaintyExpr : String
  percentageUncertainty : String
deriving DecidableEq, Repr

/-- The try-block of `calculate_uncertainties` (src/server.py lines
78–90), with the process-wide assumption set threaded as `g`:
`Expression.from_string(str_args, str_expr)`, then the positivity
assumptions for the `vars` field, then the two uncertainty calls with
the undeclared keyword argument `refine`, then the three `evaluate`
calls with the undeclared keyword argument `precision`, then the
successful payload. -/
def calcTryBlock (req : CalcRequest) (g : List Assumption) :
    Except PyError CalcResponse := do
  let expr ← fromStringCall req.args req.expr
  let assumptions := req.vars.map Assumption.positive
  let r1 ← absoluteUncertaintyCall expr assumptions g ["refine"]
  let absolute_uncertainty_expr := r1.1
  let r2 ← fractionalUncertaintyCall expr assumptions r1.2 ["refine"]
  let fractional_uncertainty_expr := r2.1
  let value ← evaluateCall expr req.values ["values", "precision"]
  let absValue ← evaluateCall absolute_uncertainty_expr req.values
      ["values", "precision"]
  let fracValue ← evaluateCall fractional_uncertainty_expr req.values
      ["values", "precision"]
  Except.ok
    ⟨true,
     value.latexRender,
     absolute_uncertainty_expr.to_latex,
     absValue.latexRender,
     fractional_uncertainty_expr.to_latex,
     (SymExpr.sMul fracValue (SymExpr.int 100)).latexRender⟩

/-- The blank failure payload built by the except-branch of
`calculate_uncertainties` (src/server.py lines 91–100). -/
def blankCalcResponse : CalcResponse :=
  ⟨false, "", "", "", "", ""⟩

/-- The `/calculate` handler `calculate_uncertainties` (src/server.py
lines 58–100): the try-block on the decoded request; any exception is
caught and converted to the blank failure payload. -/
def calculate_uncertainties (raw : RawCalcRequest) (g : List Assumption) :
    CalcResponse :=
  match calcTryBlock (parseCalcRequest raw) g with
  | Except.ok r => r
  | Except.error _ => blankCalcResponse

/-- The JSON response of the `/parse` endpoint. -/
structure ParseResponse where
  success : Bool
  symbols : List (String × String)
  latex : String
deriving DecidableEq, Repr

/-- Python's ascending order on pairs of strings, as used by `sorted` on
the 2-tuples built in `get_symbols`: lexicographic on the components. -/
def pairLe (p q : String × String) : Bool :=
  if p.1 = q.1 then p.2 ≤ q.2 else p.1 < q.1

/-- The `/parse` handler `get_symbols` (src/server.py lines 30–55),
parametrized by the outcome of `sympy.sympify` on the submitted text (an
external parser): on success, the sorted list of
`(str(symbol), sympy.latex(symbol))` pairs over `expr.atoms(Symbol)` and
the latex of the whole expression; on any parse failure, `success=false`
with an empty symbol list and a blank latex string. -/
def get_symbols (parseResult : Except String SymExpr) : ParseResponse :=
  match parseResult with
  | Except.ok expr =>
      ⟨true,
       (expr.atoms.map
         (fun s => (s, SymExpr.latexRender (SymExpr.sym s)))).mergeSort pairLe,
       expr.latexRender⟩
  | Except.error _ => ⟨false, [], ""⟩


/-!
### Specification-side definitions

Definitions below formalize wording of the specification for comparison
with the source functions above.
-/

/-- The per-variable accumulated sum named by the specification (§4.2):
over the declared variables in order, `|∂f/∂v| * Δv`, accumulated onto
the additive identity by the evaluating `+`, exactly as the source's
`+=` builds it. -/
def absTermSum (f : SymExpr) (vars : List String) : SymExpr :=
  vars.foldl
    (fun acc v =>
      SymExpr.sAdd acc
        (SymExpr.sMul (SymExpr.sAbs (f.diff v)) (SymExpr.sym ("Δ" ++ v))))
    (SymExpr.int 0)

/-- The error the specification's `fromTree` is said to raise. -/
inductive ConstructionError
  | malformedExpression
deriving DecidableEq, Repr

/-- Modelled from the spec (§4.1, `fromTree`): the validating
constructor the specification describes, which fails with
`MalformedExpression` when the formula references a symbol not among the
declared variables (the constants pi and E are their own tree
constructors, never `Symbol` atoms, hence always allowed).  Present only
to contrast with the source `Expression.init`, which performs no
validation. -/
def fromTreeSpec (args : List String) (expr : SymExpr) :
    Except ConstructionError Expression :=
  if expr.atoms.all (fun s => args.contains s) then Except.ok ⟨args, expr⟩
  else Except.error ConstructionError.malformedExpression

/-!
### Lemmas about the embedded sympy constructors
-/

namespace SymExpr

theorem getInt_eq_some {e : SymExpr} {n : Int} (h : getInt e = some n) :
    e = int n := by
  cases e <;> simp_all [getInt]

theorem denote_sAdd (env : String → ℚ) (a b : SymExpr) :
    denote env (sAdd a b) = denote env a + denote env b := by
  unfold sAdd
  rcases ha : getInt a with _ | m <;> rcases hb : getInt b with _ | n
  · simp only [ha, hb]
    split_ifs with h1 h2 <;> simp_all [denote]
  · obtain rfl := getInt_eq_some hb
    simp only [ha, hb]
    split_ifs with h1 h2 <;> simp_all [denote]
  · obtain rfl := getInt_eq_some ha
    simp only [ha, hb]
    split_ifs with h1 h2 <;> simp_all [denote]
  · obtain rfl := getInt_eq_some ha
    obtain rfl := getInt_eq_some hb
    simp only [ha, hb, denote]
    push_cast
    ring

theorem denote_sMul (env : String → ℚ) (a b : SymExpr) :
    denote env (sMul a b) = denote env a * denote env b := by
  unfold sMul
  rcases ha : getInt a with _ | m <;> rcases hb : getInt b with _ | n
  · simp only [ha, hb]
    split_ifs with h1 h2 h3 h4 <;> simp_all [denote]
  · obtain rfl := getInt_eq_some hb
    simp only [ha, hb]
    split_ifs with h1 h2 h3 h4 <;> simp_all [denote]
  · obtain rfl := getInt_eq_some ha
    simp only [ha, hb]
    split_ifs with h1 h2 h3 h4 <;> simp_all [denote]
  · obtain rfl := getInt_eq_some ha
    obtain rfl := getInt_eq_some hb
    simp only [ha, hb, denote]
    push_cast
    ring

theorem denote_sPow (env : String → ℚ) (a b : SymExpr) :
    denote env (sPow a b) = ratPow (denote env a) (denote env b) := by
  unfold sPow
  split_ifs with h1 h2
  · subst h1
    simp [denote, ratPow]
  · subst h2
    simp [denote, ratPow]
  · rfl

theorem ratPow_neg_one (x : ℚ) : ratPow x (((-1 : Int) : ℚ)) = x⁻¹ := by
  simp [ratPow, Rat.den_intCast, Rat.num_intCast]

theorem denote_sDiv (env : String → ℚ) (a b : SymExpr) :
    denote env (sDiv a b) = denote env a * (denote env b)⁻¹ := by
  unfold sDiv
  rw [denote_sMul, denote_sPow]
  simp only [denote]
  rw [ratPow_neg_one]

theorem denote_addTerms_sum (env : String → ℚ) (e : SymExpr) :
    ((addTerms e).map (denote env)).sum = denote env e := by
  induction e <;> simp_all [addTerms, denote]

end SymExpr

namespace SymExpr

theorem denote_foldl_sDiv (env : String → ℚ) (d : SymExpr) :
    ∀ (ts : List SymExpr) (z : SymExpr),
      denote env (ts.foldl (fun acc t => sAdd acc (sDiv t d)) z)
        = denote env z + (ts.map (denote env)).sum * (denote env d)⁻¹ := by
  intro ts
  induction ts with
  | nil => intro z; simp
  | cons t ts ih =>
      intro z
      simp only [List.foldl_cons, List.map_cons, List.sum_cons]
      rw [ih, denote_sAdd, denote_sDiv]
      ring

end SymExpr

theorem denote_fracBranch (env : String → ℚ) (u d : SymExpr) :
    SymExpr.denote env (fracBranch u d)
      = SymExpr.denote env u * (SymExpr.denote env d)⁻¹ := by
  have hdef : ∀ x : SymExpr,
      SymExpr.denote env (SymExpr.mul x (SymExpr.sPow d (SymExpr.int (-1))))
        = SymExpr.denote env x * (SymExpr.denote env d)⁻¹ := by
    intro x
    show SymExpr.denote env x
        * SymExpr.denote env (SymExpr.sPow d (SymExpr.int (-1))) = _
    rw [SymExpr.denote_sPow]
    show SymExpr.denote env x
        * ratPow (SymExpr.denote env d) (((-1 : Int) : ℚ)) = _
    rw [SymExpr.ratPow_neg_one]
  cases u with
  | add a b =>
      show SymExpr.denote env
          (((SymExpr.add a b).addTerms).foldl
            (fun acc addend => SymExpr.sAdd acc (SymExpr.sDiv addend d))
            (SymExpr.int 0)) = _
      rw [SymExpr.denote_foldl_sDiv, SymExpr.denote_addTerms_sum]
      simp [SymExpr.denote]
  | mul a b =>
      show SymExpr.denote env (SymExpr.sDiv (SymExpr.mul a b) d) = _
      rw [SymExpr.denote_sDiv]
  | int n => exact hdef _
  | sym s => exact hdef _
  | piC => exact hdef _
  | eC => exact hdef _
  | pow a b => exact hdef _
  | abs a => exact hdef _
  | sign a => exact hdef _
  | log a => exact hdef _

/-- The loop of `calculate_absolute_uncertainty` decomposed: the triple
fold computes the accumulated term sum, appends the Δ-names in order,
and appends the positivity assumptions in order. -/
theorem absStep_foldl (f : SymExpr) :
    ∀ (l : List String) (x : SymExpr) (ys : List String)
      (g : List Assumption),
      l.foldl (absStep f) (x, ys, g)
        = (l.foldl
             (fun acc v =>
               SymExpr.sAdd acc
                 (SymExpr.sMul (SymExpr.sAbs (f.diff v))
                   (SymExpr.sym ("Δ" ++ v)))) x,
           ys ++ l.map (fun v => "Δ" ++ v),
           g ++ l.map Assumption.positive) := by
  intro l
  induction l with
  | nil => intro x ys g; simp
  | cons v t ih =>
      intro x ys g
      simp only [List.foldl_cons, List.map_cons, absStep]
      rw [ih]
      simp

/-- Closed form of `Expression.calculate_absolute_uncertainty`: the
uncertainty-variable list is the Δ-image of the declared variables in
order, the formula is the accumulated per-variable sum refined under the
initial global set plus the supplied assumptions plus the implicit
positivity assumptions, and the surviving global set is empty. -/
theorem calculate_absolute_uncertainty_eq (self : Expression)
    (as g : List Assumption) :
    self.calculate_absolute_uncertainty as g
      = (⟨self.args.map (fun v => "Δ" ++ v),
          SymExpr.refine (g ++ as ++ self.args.map Assumption.positive)
            (absTermSum self.expr self.args)⟩,
         []) := by
  show ((⟨(self.args.foldl (absStep self.expr)
             (SymExpr.int 0, [], g ++ as)).2.1,
          SymExpr.refine
            (self.args.foldl (absStep self.expr)
              (SymExpr.int 0, [], g ++ as)).2.2
            (self.args.foldl (absStep self.expr)
              (SymExpr.int 0, [], g ++ as)).1⟩ : Expression),
        ([] : List Assumption))
      = (⟨self.args.map (fun v => "Δ" ++ v),
          SymExpr.refine (g ++ as ++ self.args.map Assumption.positive)
            (absTermSum self.expr self.args)⟩,
         [])
  rw [absStep_foldl]
  simp [absTermSum]

/-- The `/calculate` handler returns the blank failure payload on every
request: the first statement of the try-block already raises
`AttributeError`. -/
theorem calculate_uncertainties_blank (raw : RawCalcRequest)
    (g : List Assumption) : calculate_uncertainties raw g = blankCalcResponse :=
  rfl

/-- Transitivity of the pair order used by the `/parse` handler. -/
theorem pairLe_trans (p q r : String × String)
    (h1 : pairLe p q = true) (h2 : pairLe q r = true) : pairLe p r = true := by
  unfold pairLe at h1 h2 ⊢
  by_cases hab : p.1 = q.1 <;> by_cases hbc : q.1 = r.1
  · rw [if_pos hab] at h1
    rw [if_pos hbc] at h2
    rw [if_pos (hab.trans hbc)]
    simp only [decide_eq_true_eq] at h1 h2 ⊢
    exact le_trans h1 h2
  · rw [if_neg hbc] at h2
    simp only [decide_eq_true_eq] at h2
    have hpr : p.1 < r.1 := lt_of_le_of_lt (le_of_eq hab) h2
    rw [if_neg (ne_of_lt hpr)]
    simp only [decide_eq_true_eq]
    exact hpr
  · rw [if_neg hab] at h1
    simp only [decide_eq_true_eq] at h1
    have hpr : p.1 < r.1 := lt_of_lt_of_le h1 (le_of_eq hbc)
    rw [if_neg (ne_of_lt hpr)]
    simp only [decide_eq_true_eq]
    exact hpr
  · rw [if_neg hab] at h1
    rw [if_neg hbc] at h2
    simp only [decide_eq_true_eq] at h1 h2
    have hpr : p.1 < r.1 := lt_trans h1 h2
    rw [if_neg (ne_of_lt hpr)]
    simp only [decide_eq_true_eq]
    exact hpr

/-- Totality of the pair order used by the `/parse` handler. -/
theorem pairLe_total (p q : String × String) :
    (pairLe p q || pairLe q p) = true := by
  unfold pairLe
  rcases lt_trichotomy p.1 q.1 with h | h | h
  · rw [if_neg (ne_of_lt h), if_neg (Ne.symm (ne_of_lt h))]
    simp only [Bool.or_eq_true, decide_eq_true_eq]
    exact Or.inl h
  · rw [if_pos h, if_pos h.symm]
    simp only [Bool.or_eq_true, decide_eq_true_eq]
    exact le_total p.2 q.2
  · rw [if_neg (ne_of_gt h), if_neg (Ne.symm (ne_of_gt h))]
    simp only [Bool.or_eq_true, decide_eq_true_eq]
    exact Or.inr h

/-!
### Claim C1
-/

/-- C1: for every Expression with variable list `[v1, …, vn]`,
`calculate_absolute_uncertainty` returns a new Expression whose variable
list is exactly `[Δv1, …, Δvn]` (one uncertainty-variable per original
variable, declared order) and whose formula is the accumulated sum over
the variables of `|∂f/∂v|·Δv`, refined under the supplied assumptions
plus the implicit positivity assumption on every declared variable; in
particular `Expression([a,b,c], a+b-c).calculate_absolute_uncertainty()`
equals `Expression([Δa,Δb,Δc], Δa+Δb+Δc)`. -/
theorem C1_absolute_uncertainty_shape :
    (∀ (e : Expression) (as : List Assumption),
      e.calculate_absolute_uncertainty as []
        = (⟨e.args.map (fun v => "Δ" ++ v),
            SymExpr.refine (as ++ e.args.map Assumption.positive)
              (absTermSum e.expr e.args)⟩,
           [])) ∧
    (Expression.init ["a", "b", "c"]
        (SymExpr.sSub (SymExpr.sAdd (SymExpr.sym "a") (SymExpr.sym "b"))
          (SymExpr.sym "c"))).calculate_absolute_uncertainty [] []
      = (Expression.init ["Δa", "Δb", "Δc"]
          (SymExpr.sAdd (SymExpr.sAdd (SymExpr.sym "Δa") (SymExpr.sym "Δb"))
            (SymExpr.sym "Δc")),
         []) := by
  constructor
  · intro e as
    rw [calculate_absolute_uncertainty_eq]
    simp
  · decide

/-!
### Claim C2
-/

/-- C2: for every Expression, the fractional-uncertainty formula is
mathematically equal to the absolute-uncertainty formula divided by the
Expression's own formula — at every environment, across all shape
branches of `fracBranch` — and the result reuses the absolute result's
uncertainty-variable list. -/
theorem C2_fractional_is_absolute_div_formula :
    ∀ (e : Expression) (as g : List Assumption) (env : String → ℚ),
      SymExpr.denote env (e.calculate_fractional_uncertainty as g).1.expr
        = SymExpr.denote env (e.calculate_absolute_uncertainty as g).1.expr
            / SymExpr.denote env e.expr ∧
      (e.calculate_fractional_uncertainty as g).1.args
        = (e.calculate_absolute_uncertainty as g).1.args := by
  intro e as g env
  constructor
  · rw [div_eq_mul_inv]
    exact denote_fracBranch env
      (e.calculate_absolute_uncertainty as g).1.expr e.expr
  · rfl

/-!
### Claim C3
-/

/-- C3: every request to the `/calculate` endpoint fails — the
try-block raises `AttributeError` at its first statement because the
`Expression` class defines no `from_string` (only the stub `from_latex`
exists), and even the later calls pass keyword arguments (`precision`
to `evaluate`, `refine` to the uncertainty methods) that the signatures
do not declare — so the handler always returns the blank
`success=false` payload. -/
theorem C3_calculate_endpoint_never_succeeds :
    (∀ (req : CalcRequest) (g : List Assumption),
      calcTryBlock req g
        = Except.error (PyError.attributeError "from_string")) ∧
    (∀ (raw : RawCalcRequest) (g : List Assumption),
      calculate_uncertainties raw g = blankCalcResponse) ∧
    expressionClassAttrs.contains "from_string" = false ∧
    expressionClassAttrs.contains "from_latex" = true ∧
    evaluateKeywordParams.contains "precision" = false ∧
    uncertaintyKeywordParams.contains "refine" = false := by
  refine ⟨fun req g => rfl,
          fun raw g => calculate_uncertainties_blank raw g,
          ?_, ?_, ?_, ?_⟩ <;> decide

/-!
### Claim C4
-/

/-- C4: assumptions supplied to a propagation call (and the implicit
positivity assumptions added inside it) are scoped to that call: the
process-wide assumption set surviving the call is empty, so a later
call starting from the surviving state behaves exactly as from a clean
state. -/
theorem C4_assumptions_are_call_scoped :
    ∀ (e : Expression) (as g : List Assumption),
      (e.calculate_absolute_uncertainty as g).2 = [] ∧
      (e.calculate_fractional_uncertainty as g).2 = [] ∧
      (∀ (e2 : Expression) (as2 : List Assumption),
        e2.calculate_absolute_uncertainty as2
            (e.calculate_absolute_uncertainty as g).2
          = e2.calculate_absolute_uncertainty as2 [] ∧
        e2.calculate_fractional_uncertainty as2
            (e.calculate_fractional_uncertainty as g).2
          = e2.calculate_fractional_uncertainty as2 []) :=
  fun _ _ _ => ⟨rfl, rfl, fun _ _ => ⟨rfl, rfl⟩⟩

/-!
### Claim C5
-/

/-- C5: for every Expression whose variable list is empty,
`calculate_absolute_uncertainty` succeeds and returns an Expression
with an empty variable list whose formula is exactly the additive
identity zero. -/
theorem C5_empty_variable_list (e : Expression) (as g : List Assumption)
    (h : e.args = []) :
    e.calculate_absolute_uncertainty as g = (⟨[], SymExpr.int 0⟩, []) := by
  obtain ⟨args, f⟩ := e
  have h' : args = [] := h
  subst h'
  rfl

/-- Witness for C5 at the concrete no-variable Expression `f() = y`. -/
theorem C5_empty_variable_list_witness :
    (Expression.init [] (SymExpr.sym "y")).args = [] ∧
    (Expression.init [] (SymExpr.sym "y")).calculate_absolute_uncertainty
        [] []
      = (⟨[], SymExpr.int 0⟩, []) :=
  ⟨rfl, C5_empty_variable_list (Expression.init [] (SymExpr.sym "y")) [] [] rfl⟩

/-!
### Claim C6
-/

/-- C6 (code bug): `Expression.evaluate` accepts no precision argument.
Its keyword-bindable parameters are only `values`; a call passing the
`precision` keyword (as src/server.py lines 85–89 do, with default 3
significant figures) raises `TypeError`; a legal call returns the bare
substitution with no rounding step at all.  The request default for
`prec` at the calculation interface is 3. -/
theorem C6_evaluate_rejects_precision :
    evaluateKeywordParams.contains "precision" = false ∧
    (∀ (e : Expression) (vals : List (String × SymExpr)),
      evaluateCall e vals ["values", "precision"]
        = Except.error (PyError.typeError "evaluate")) ∧
    (∀ (e : Expression) (vals : List (String × SymExpr)),
      evaluateCall e vals [] = Except.ok (e.expr.subs vals)) ∧
    (parseCalcRequest ⟨none, none, none, none, none, none⟩).prec = 3 :=
  ⟨by decide, fun _ _ => rfl, fun _ _ => rfl, rfl⟩

/-!
### Claim C7
-/

/-- C7 counterexample: constructing `Expression([a], b)` — whose
formula references the symbol `b`, not derivable from the declared
variable list `[a]` — succeeds and stores the fields unchanged, while
the specification's validating `fromTree` would have failed with
`MalformedExpression`. -/
theorem C7_init_counterexample :
    Expression.init ["a"] (SymExpr.sym "b") = ⟨["a"], SymExpr.sym "b"⟩ ∧
    (SymExpr.sym "b").atoms = ["b"] ∧
    "b" ∉ (["a"] : List String) ∧
    fromTreeSpec ["a"] (SymExpr.sym "b")
      = Except.error ConstructionError.malformedExpression :=
  ⟨rfl, rfl, by decide, rfl⟩

/-- C7 amended: direct construction performs no validation — even when
the formula references symbols not derivable from the declared
variables, `Expression.__init__` succeeds and stores the argument list
and formula unchanged; no `MalformedExpression` failure exists in the
code. -/
theorem C7_init_never_validates (args : List String) (expr : SymExpr)
    (h : ∃ s ∈ expr.atoms, s ∉ args) :
    Expression.init args expr = ⟨args, expr⟩ :=
  rfl

/-- Witness for C7's amended statement at `Expression([a], b)`. -/
theorem C7_init_never_validates_witness :
    (∃ s ∈ (SymExpr.sym "b").atoms, s ∉ (["a"] : List String)) ∧
    Expression.init ["a"] (SymExpr.sym "b") = ⟨["a"], SymExpr.sym "b"⟩ :=
  ⟨⟨"b", by decide, by decide⟩,
   C7_init_never_validates ["a"] (SymExpr.sym "b") ⟨"b", by decide, by decide⟩⟩

/-!
### Claim C8
-/

/-- C8 counterexample: supplying `Q.negative(a)` — which contradicts
the implicit `Q.positive(a)` added for the declared variable `a` —
does not make either operation fail: both return normally (no
`AssumptionConflict` class exists anywhere in the source). -/
theorem C8_no_conflict_detection_counterexample :
    (Expression.init ["a"] (SymExpr.sym "a")).calculate_absolute_uncertainty
        [Assumption.negative "a"] []
      = (⟨["Δa"], SymExpr.sym "Δa"⟩, []) ∧
    (Expression.init ["a"] (SymExpr.sym "a")).calculate_fractional_uncertainty
        [Assumption.negative "a"] []
      = (⟨["Δa"],
          SymExpr.mul (SymExpr.sym "Δa")
            (SymExpr.pow (SymExpr.sym "a") (SymExpr.int (-1)))⟩,
         []) := by
  constructor <;> decide

/-- C8 amended: neither operation checks assumptions for consistency:
even when the supplied assumptions contain both `Q.positive(s)` and
`Q.negative(s)` for the same symbol, both calls return normally — an
Expression over the Δ-variables in declared order, with the global
assumption set cleared. -/
theorem C8_no_conflict_detection (e : Expression) (as g : List Assumption)
    (s : String) (h1 : Assumption.positive s ∈ as)
    (h2 : Assumption.negative s ∈ as) :
    (e.calculate_absolute_uncertainty as g).1.args
        = e.args.map (fun v => "Δ" ++ v) ∧
    (e.calculate_absolute_uncertainty as g).2 = [] ∧
    (e.calculate_fractional_uncertainty as g).1.args
        = e.args.map (fun v => "Δ" ++ v) ∧
    (e.calculate_fractional_uncertainty as g).2 = [] := by
  refine ⟨?_, rfl, ?_, rfl⟩
  · simp [calculate_absolute_uncertainty_eq]
  · show (e.calculate_absolute_uncertainty as g).1.args = _
    simp [calculate_absolute_uncertainty_eq]

/-- Witness for C8's amended statement with the contradictory pair
`[Q.positive(a), Q.negative(a)]`. -/
theorem C8_no_conflict_detection_witness :
    Assumption.positive "a"
        ∈ [Assumption.positive "a", Assumption.negative "a"] ∧
    Assumption.negative "a"
        ∈ [Assumption.positive "a", Assumption.negative "a"] ∧
    ((Expression.init ["a"] (SymExpr.sym "a")).calculate_absolute_uncertainty
        [Assumption.positive "a", Assumption.negative "a"] []).1.args
      = ["Δa"] ∧
    ((Expression.init ["a"] (SymExpr.sym "a")).calculate_absolute_uncertainty
        [Assumption.positive "a", Assumption.negative "a"] []).2 = [] := by
  have h := C8_no_conflict_detection (Expression.init ["a"] (SymExpr.sym "a"))
      [Assumption.positive "a", Assumption.negative "a"] [] "a"
      (List.mem_cons_self _ _)
      (List.mem_cons_of_mem _ (List.mem_cons_self _ _))
  exact ⟨List.mem_cons_self _ _,
         List.mem_cons_of_mem _ (List.mem_cons_self _ _),
         by rw [h.1]; decide, h.2.1⟩

/-!
### Claim C9
-/

/-- C9: the `/parse` handler, on successful parsing, returns
`success=true`, a sorted list of (plain-name, markup-name) pairs
containing exactly one pair for every free symbol found, and the markup
rendering of the parsed expression; on any parse failure it returns
`success=false`, an empty symbol list and a blank markup string,
propagating nothing to the caller. -/
theorem C9_get_symbols_contract :
    (∀ msg : String,
      get_symbols (Except.error msg) = ⟨false, [], ""⟩) ∧
    (∀ e : SymExpr,
      (get_symbols (Except.ok e)).success = true ∧
      (get_symbols (Except.ok e)).latex = e.latexRender ∧
      (get_symbols (Except.ok e)).symbols.Pairwise
        (fun p q => pairLe p q = true) ∧
      (∀ p : String × String,
        p ∈ (get_symbols (Except.ok e)).symbols ↔
          p ∈ e.atoms.map
              (fun s => (s, SymExpr.latexRender (SymExpr.sym s))))) := by
  constructor
  · intro _; rfl
  · intro e
    refine ⟨rfl, rfl, ?_, ?_⟩
    · exact List.sorted_mergeSort
        (fun a b c hab hbc => pairLe_trans a b c hab hbc)
        (fun a b => pairLe_total a b) _
    · intro p
      show p ∈ (e.atoms.map
          (fun s => (s, SymExpr.latexRender (SymExpr.sym s)))).mergeSort
            pairLe ↔ _
      exact List.mem_mergeSort

/-!
### Claim C10
-/

/-- C10: every request to the `/calculate` endpoint for which the
try-block fails still yields a well-formed response in which
`success=false` and every string field is present but blank — here
every request fails, so this holds for all of them, with no partial
results and no unhandled fault. -/
theorem C10_blank_failure_fields :
    ∀ (raw : RawCalcRequest) (g : List Assumption),
      (calculate_uncertainties raw g).success = false ∧
      (calculate_uncertainties raw g).value = "" ∧
      (calculate_uncertainties raw g).absoluteUncertaintyExpr = "" ∧
      (calculate_uncertainties raw g).absoluteUncertainty = "" ∧
      (calculate_uncertainties raw g).fractionalUncertaintyExpr = "" ∧
      (calculate_uncertainties raw g).percentageUncertainty = "" := by
  intro raw g
  rw [calculate_uncertainties_blank]
  exact ⟨rfl, rfl, rfl, rfl, rfl, rfl⟩
